import Mathlib

/-!
Verification development for the agentic chunk-clustering core of the
UUD-RAG repository (src/chunker/agentic.py, src/chunker/base.py,
src/utils/json_parser.py).

The Python code is shallowly embedded: the mutable `self.chunks` dict is an
insertion-ordered association list (Python 3.7+ dict semantics), the LLM
collaborator and the uuid4 / sha256 sources of the environment are explicit
parameters, every LLM-issuing operation returns the list of queries it
issued (its call trace), the resulting state, and an `Except` value that
models a Python exception propagating (`.error`) versus normal return
(`.ok`).  Python's in-place mutation is modelled by returning the state
reached at the moment an exception is raised.
-/

/-- Python `str.strip()` whitespace test (space, tab, newline, CR, VT, FF). -/
def isPySpace (c : Char) : Bool :=
  c == ' ' || c == '\t' || c == '\n' || c == '\r' ||
  c == Char.ofNat 11 || c == Char.ofNat 12

/-- Drop characters satisfying `p` from both ends of a character list. -/
def stripList (p : Char → Bool) (cs : List Char) : List Char :=
  ((cs.dropWhile p).reverse.dropWhile p).reverse

/-- Python `str.strip()` (no arguments): strip whitespace from both ends. -/
def pyStrip (s : String) : String :=
  String.mk (stripList isPySpace s.toList)

/-- Remove the first occurrence of `pat` from `cs`
(Python `s.replace(pat, "", 1)` on the underlying characters). -/
def replaceFirstAux (pat : List Char) : List Char → List Char
  | [] => []
  | c :: cs =>
    if pat.isPrefixOf (c :: cs) then (c :: cs).drop pat.length
    else c :: replaceFirstAux pat cs

/-- Python `s.replace(pat, "", 1)`. -/
def replaceFirst (s pat : String) : String :=
  String.mk (replaceFirstAux pat.toList s.toList)

/-- The cleaning phase of `parse_json_response` (src/chunker/agentic.py
lines 123-129 and src/utils/json_parser.py lines 9-13): strip whitespace;
if the result starts with a code fence, strip ALL leading and trailing
backticks, delete the first occurrence of the substring "json" anywhere in
the remainder, and strip whitespace again. -/
def clean_json_response (result : String) : String :=
  let cleaned := pyStrip result
  if "```".toList.isPrefixOf cleaned.toList then
    pyStrip (replaceFirst (String.mk (stripList (fun c => c == '`') cleaned.toList)) "json")
  else
    cleaned

/-- JSON values appearing in the two response schemas of the chunker
(`Sentences` and `ChunkMatch`): strings, `null`, and flat arrays of
strings.  This is the fragment of JSON that `model_validate_json` accepts
for those schemas. -/
inductive JVal where
  | jstr (s : String)
  | jnull
  | jarr (xs : List String)
deriving DecidableEq

/-- Skip JSON/Python whitespace. -/
def skipWs (cs : List Char) : List Char := cs.dropWhile isPySpace

/-- Parse the body of a JSON string literal after the opening quote, up to
the closing quote.  Modelled from the spec: the JSON decoding performed by
pydantic's `model_validate_json` (an external library, not in src/),
restricted to strings without escape sequences. -/
def parseStrChars : List Char → Option (List Char × List Char)
  | [] => none
  | c :: rest =>
    if c = '"' then some ([], rest)
    else if c = '\\' then none
    else (parseStrChars rest).map (fun p => (c :: p.1, p.2))

/-- Parse a JSON string literal (leading whitespace allowed). -/
def parseStringLit (cs : List Char) : Option (String × List Char) :=
  match skipWs cs with
  | '"' :: rest => (parseStrChars rest).map (fun p => (String.mk p.1, p.2))
  | _ => none

/-- Parse the comma-separated items of a JSON array of strings, up to and
including the closing bracket. -/
def parseStrItems : Nat → List Char → Option (List String × List Char)
  | 0, _ => none
  | fuel + 1, cs =>
    match parseStringLit cs with
    | none => none
    | some (s, rest) =>
      match skipWs rest with
      | ',' :: rest2 => (parseStrItems fuel rest2).map (fun p => (s :: p.1, p.2))
      | ']' :: rest2 => some ([s], rest2)
      | _ => none

/-- Parse a JSON value of the fragment: string, `null`, or array of
strings. -/
def parseJVal (cs : List Char) : Option (JVal × List Char) :=
  match skipWs cs with
  | '"' :: rest => (parseStrChars rest).map (fun p => (JVal.jstr (String.mk p.1), p.2))
  | 'n' :: 'u' :: 'l' :: 'l' :: rest => some (JVal.jnull, rest)
  | '[' :: rest =>
    (match skipWs rest with
     | ']' :: rest2 => some (JVal.jarr [], rest2)
     | _ => (parseStrItems (rest.length + 1) rest).map (fun p => (JVal.jarr p.1, p.2)))
  | _ => none

/-- Parse the fields of a JSON object after the opening brace, up to and
including the closing brace. -/
def parseObjItems : Nat → List Char → Option (List (String × JVal) × List Char)
  | 0, _ => none
  | fuel + 1, cs =>
    match parseStringLit cs with
    | none => none
    | some (k, rest) =>
      match skipWs rest with
      | ':' :: rest2 =>
        (match parseJVal rest2 with
         | none => none
         | some (v, rest3) =>
           match skipWs rest3 with
           | ',' :: rest4 => (parseObjItems fuel rest4).map (fun p => ((k, v) :: p.1, p.2))
           | '}' :: rest4 => some ([(k, v)], rest4)
           | _ => none)
      | _ => none

/-- Parse a complete JSON object (the only top-level shape either schema
accepts); any non-object top level or trailing garbage is a decode
failure.  Modelled from the spec: pydantic `model_validate_json` JSON
decoding for the object fragment used by the chunker. -/
def json_parse_object (s : String) : Option (List (String × JVal)) :=
  match skipWs s.toList with
  | '{' :: rest =>
    (match skipWs rest with
     | '}' :: rest2 => if (skipWs rest2).isEmpty then some [] else none
     | _ =>
       match parseObjItems (rest.length + 1) rest with
       | none => none
       | some (fields, rest2) => if (skipWs rest2).isEmpty then some fields else none)
  | _ => none

/-- First field with the given key, if any. -/
def fieldGet (fields : List (String × JVal)) (k : String) : Option JVal :=
  (fields.find? (fun kv => kv.1 == k)).map (fun kv => kv.2)

/-- Schema validation for `class Sentences(BaseModel): propositions: list[str]`
(src/chunker/agentic.py lines 199-200): the required field `propositions`
must be a list of strings; extra fields are ignored. -/
def validate_sentences (fields : List (String × JVal)) : Option (List String) :=
  match fieldGet fields "propositions" with
  | some (JVal.jarr xs) => some xs
  | _ => none

/-- The parsed form of `class ChunkMatch(BaseModel): chunk_id: Optional[str] = None`
(src/chunker/agentic.py lines 441-442). -/
structure ChunkMatch where
  chunk_id : Option String
deriving DecidableEq

/-- Schema validation for `ChunkMatch`: `chunk_id` may be a string, `null`,
or absent (defaulting to `None`); any other shape is a validation error. -/
def validate_chunk_match (fields : List (String × JVal)) : Option ChunkMatch :=
  match fieldGet fields "chunk_id" with
  | some (JVal.jstr s) => some ⟨some s⟩
  | some JVal.jnull => some ⟨none⟩
  | some (JVal.jarr _) => none
  | none => some ⟨none⟩

/-- `parse_json_response(result, Sentences)` (src/chunker/agentic.py lines
123-138): clean the fenced response, then decode and validate; any
failure yields `none` (the Python code catches the exception, prints an
error, and returns `None`). -/
def parse_json_response_sentences (result : String) : Option (List String) :=
  (json_parse_object (clean_json_response result)).bind validate_sentences

/-- `parse_json_response(result, ChunkMatch)`: clean the fenced response,
then decode and validate; any failure yields `none`. -/
def parse_json_response_chunk_match (result : String) : Option ChunkMatch :=
  (json_parse_object (clean_json_response result)).bind validate_chunk_match

/-- A cluster record as stored in `self.chunks` (src/chunker/agentic.py
lines 373-379): id, title, summary, ordered member propositions, and the
insertion index (`len(self.chunks)` at creation time). -/
structure Chunk where
  id : String
  title : String
  summary : String
  propositions : List String
  index : Nat
deriving DecidableEq

/-- Insertion-ordered string-keyed dictionary (Python 3.7+ `dict`
semantics) as an association list. -/
abbrev PyDict (α : Type) := List (String × α)

/-- `self.chunks`, the in-memory cluster store. -/
abbrev ChunkDict := PyDict Chunk

/-- Python `k in d`. -/
def dictMem {α : Type} (d : PyDict α) (k : String) : Bool :=
  d.any (fun kv => kv.1 == k)

/-- Python `d[k]` as a partial read (`none` models `KeyError`). -/
def dictGet {α : Type} (d : PyDict α) (k : String) : Option α :=
  (d.find? (fun kv => kv.1 == k)).map (fun kv => kv.2)

/-- Python `d[k] = v`: replace in place if the key is present (keeping its
position), otherwise append at the end. -/
def dictSet {α : Type} : PyDict α → String → α → PyDict α
  | [], k, v => [(k, v)]
  | (k', v') :: rest, k, v =>
    if k' = k then (k, v) :: rest else (k', v') :: dictSet rest k v

/-- The six structured LLM requests issued by `AgenticChunker`, carrying
exactly the template variables the Python code fills in. -/
inductive LLMQuery where
  | propositions (text : String)
  | findSimilar (proposition : String) (outline : String)
  | newSummary (proposition : String)
  | newTitle (summary : String)
  | updateTitle (propositionsJoined : String) (currentSummary : String) (currentTitle : String)
  | updateSummary (propositionsJoined : String) (currentSummary : String)
deriving DecidableEq

/-- Whether a query is the similarity-judgment request of
`_find_similar_chunk`. -/
def LLMQuery.isSimilarityJudgment : LLMQuery → Bool
  | LLMQuery.findSimilar _ _ => true
  | _ => false

/-- The external environment: the LLM collaborator (`llm.answer`, which may
raise — modelled by `Except`), the uuid4 stream (a fresh-id supply indexed
by a draw counter), and the sha256 hex digest (an opaque function of the
hashed string). -/
structure LLMEnv where
  answer : LLMQuery → Except String String
  newUuid : Nat → String
  sha256 : String → String

/-- Chunker state: the cluster store plus the position in the uuid stream. -/
structure ChunkerState where
  chunks : ChunkDict
  uuidCounter : Nat
deriving DecidableEq

/-- Python `"\n".join(xs)`. -/
def joinNL (xs : List String) : String := String.intercalate "\n" xs

/-- `get_chunks` (src/chunker/agentic.py lines 383-385): the outline of all
clusters, one line per cluster with id, title, and summary. -/
def get_chunks (st : ChunkerState) : String :=
  joinNL (st.chunks.map (fun kv =>
    "Chunk ID: " ++ kv.2.id ++ ", Judul: " ++ kv.2.title ++ ", Ringkasan: " ++ kv.2.summary))

/-- `_create_chunk` (src/chunker/agentic.py lines 368-381): draw a fresh
uuid, ask for the new chunk's summary from the proposition, then for its
title from that summary, then insert the record with
`index = len(self.chunks)` (the count before insertion).  An LLM failure
raises before any store mutation. -/
def create_chunk (env : LLMEnv) (st : ChunkerState) (prop : String) :
    List LLMQuery × ChunkerState × Except String Unit :=
  let id := env.newUuid st.uuidCounter
  match env.answer (LLMQuery.newSummary prop) with
  | Except.error e =>
    ([LLMQuery.newSummary prop], { st with uuidCounter := st.uuidCounter + 1 }, Except.error e)
  | Except.ok summary =>
    match env.answer (LLMQuery.newTitle summary) with
    | Except.error e =>
      ([LLMQuery.newSummary prop, LLMQuery.newTitle summary],
       { st with uuidCounter := st.uuidCounter + 1 }, Except.error e)
    | Except.ok title =>
      ([LLMQuery.newSummary prop, LLMQuery.newTitle summary],
       { chunks := dictSet st.chunks id
           { id := id, title := title, summary := summary,
             propositions := [prop], index := st.chunks.length },
         uuidCounter := st.uuidCounter + 1 },
       Except.ok ())

/-- `_find_similar_chunk` (src/chunker/agentic.py lines 387-448): render
the outline, issue the similarity-judgment query, parse the response
against `ChunkMatch`; if parsing fails, or the answer is `null`, or the
returned id is not a key of the store, the result is `none`. -/
def find_similar_chunk (env : LLMEnv) (st : ChunkerState) (prop : String) :
    List LLMQuery × Except String (Option String) :=
  let q := LLMQuery.findSimilar prop (get_chunks st)
  match env.answer q with
  | Except.error e => ([q], Except.error e)
  | Except.ok resp =>
    ([q],
     Except.ok
       (match parse_json_response_chunk_match resp with
        | none => none
        | some cm =>
          match cm.chunk_id with
          | none => none
          | some cid => if dictMem st.chunks cid then some cid else none))

/-- `add_proposition_to_chunk` (src/chunker/agentic.py lines 450-454):
append the proposition to the stored chunk's list (in-place mutation),
then recompute the title (from the updated propositions, the STALE summary
and the old title), then recompute the summary (from the updated
propositions and the stale summary).  An exception raised by either LLM
call propagates, leaving the mutations made so far in place; a missing key
raises `KeyError`. -/
def add_proposition_to_chunk (env : LLMEnv) (st : ChunkerState) (cid : String) (prop : String) :
    List LLMQuery × ChunkerState × Except String Unit :=
  match dictGet st.chunks cid with
  | none => ([], st, Except.error "KeyError")
  | some c =>
    let c1 : Chunk := { c with propositions := c.propositions ++ [prop] }
    let st1 : ChunkerState := { st with chunks := dictSet st.chunks cid c1 }
    let qt := LLMQuery.updateTitle (joinNL c1.propositions) c1.summary c1.title
    match env.answer qt with
    | Except.error e => ([qt], st1, Except.error e)
    | Except.ok newTitle =>
      let c2 : Chunk := { c1 with title := newTitle }
      let st2 : ChunkerState := { st1 with chunks := dictSet st1.chunks cid c2 }
      let qs := LLMQuery.updateSummary (joinNL c2.propositions) c2.summary
      match env.answer qs with
      | Except.error e => ([qt, qs], st2, Except.error e)
      | Except.ok newSummary =>
        let c3 : Chunk := { c2 with summary := newSummary }
        ([qt, qs], { st2 with chunks := dictSet st2.chunks cid c3 }, Except.ok ())

/-- `add_proposition` (src/chunker/agentic.py lines 456-469): an empty
store creates a chunk unconditionally; otherwise the similarity judgment
decides between merging and creating. -/
def add_proposition (env : LLMEnv) (st : ChunkerState) (prop : String) :
    List LLMQuery × ChunkerState × Except String Unit :=
  if st.chunks.length = 0 then
    create_chunk env st prop
  else
    match find_similar_chunk env st prop with
    | (tr, Except.error e) => (tr, st, Except.error e)
    | (tr, Except.ok none) =>
      let r := create_chunk env st prop
      (tr ++ r.1, r.2.1, r.2.2)
    | (tr, Except.ok (some cid)) =>
      let r := add_proposition_to_chunk env st cid prop
      (tr ++ r.1, r.2.1, r.2.2)

/-- The loop `for proposition in sentences.propositions: self.add_proposition(...)`
(src/chunker/agentic.py lines 208-209); an exception from any iteration
propagates with the state reached so far. -/
def add_propositions (env : LLMEnv) : ChunkerState → List String →
    List LLMQuery × ChunkerState × Except String Unit
  | st, [] => ([], st, Except.ok ())
  | st, p :: rest =>
    match add_proposition env st p with
    | (tr, st1, Except.error e) => (tr, st1, Except.error e)
    | (tr, st1, Except.ok ()) =>
      let r := add_propositions env st1 rest
      (tr ++ r.1, r.2.1, r.2.2)

/-- `_generate_propositions` (src/chunker/agentic.py lines 140-211): one
extraction query; an unparseable response yields the empty proposition
list (after an error log) with no state change and no exception; a parsed
response feeds each proposition to `add_proposition` in order. -/
def generate_propositions (env : LLMEnv) (st : ChunkerState) (text : String) :
    List LLMQuery × ChunkerState × Except String (List String) :=
  let q := LLMQuery.propositions text
  match env.answer q with
  | Except.error e => ([q], st, Except.error e)
  | Except.ok resp =>
    match parse_json_response_sentences resp with
    | none => ([q], st, Except.ok [])
    | some props =>
      match add_propositions env st props with
      | (tr, st1, Except.error e) => (q :: tr, st1, Except.error e)
      | (tr, st1, Except.ok ()) => (q :: tr, st1, Except.ok props)

/-- The cache directory on disk: one JSON file per document hash (the
chunk dict serialized for that document), plus the `all_chunks.json` bulk
snapshot written by `save_chunks`. -/
structure FS where
  entries : PyDict ChunkDict
  snapshot : Option ChunkDict
deriving DecidableEq

/-- Look up the cache file for a document hash (`os.path.exists` +
`json.load` success path). -/
def fsGet (fs : FS) (h : String) : Option ChunkDict := dictGet fs.entries h

/-- The hash INPUT of `AgenticChunker._get_document_hash` (src/chunker/
agentic.py lines 27-29): the string fed to `hashlib.sha256` is the page
content alone. -/
def agentic_document_hash_input (page_content : String) : String := page_content

/-- A loaded page: `page_content` plus the `source` and `page` metadata
fields (`metadata.get("source", "")`, `metadata.get("page", 0)`). -/
structure Page where
  page_content : String
  source : String
  page : Int
deriving DecidableEq

/-- `AgenticChunker._get_document_hash(page.page_content)` as called from
`load_data_to_chunks` (src/chunker/agentic.py line 74), applied to a page. -/
def agentic_page_hash_input (p : Page) : String :=
  agentic_document_hash_input p.page_content

/-- The hash INPUT of `BaseChunker._get_document_hash` (src/chunker/base.py
lines 15-21): `f"{source}:{page_num}:{content}"`. -/
def base_page_hash_input (p : Page) : String :=
  p.source ++ ":" ++ toString p.page ++ ":" ++ p.page_content

/-- The cache-merge loop of `load_data_to_chunks` (src/chunker/agentic.py
lines 83-85): each cached (id, record) pair is added only if the id is not
already a key of the evolving store. -/
def merge_cached_chunks : ChunkDict → ChunkDict → ChunkDict
  | chunks, [] => chunks
  | chunks, (k, v) :: rest =>
    merge_cached_chunks (if dictMem chunks k then chunks else chunks ++ [(k, v)]) rest

/-- One iteration of the `load_data_to_chunks` page loop (src/chunker/
agentic.py lines 73-111), on the success paths of file I/O: a cache hit
merges the cached chunks (no LLM call) and rewrites the snapshot; a miss
(or `use_cache=False`) extracts and clusters the page, then writes the
positional tail `list(self.chunks.items())[chunks_before:chunks_after]` as
this document's cache record and rewrites the snapshot.  An exception from
proposition processing propagates before anything is written. -/
def process_page (env : LLMEnv) (fs : FS) (st : ChunkerState) (useCache : Bool)
    (content : String) : List LLMQuery × FS × ChunkerState × Except String Unit :=
  let key := env.sha256 (agentic_document_hash_input content)
  match useCache, fsGet fs key with
  | true, some cached =>
    let st1 : ChunkerState := { st with chunks := merge_cached_chunks st.chunks cached }
    ([], { fs with snapshot := some st1.chunks }, st1, Except.ok ())
  | _, _ =>
    match generate_propositions env st content with
    | (tr, st1, Except.error e) => (tr, fs, st1, Except.error e)
    | (tr, st1, Except.ok _) =>
      let newChunks := st1.chunks.drop st.chunks.length
      ( tr,
        { entries := dictSet fs.entries key newChunks, snapshot := some st1.chunks },
        st1, Except.ok ())

/-- `clear_cache` (src/chunker/agentic.py lines 115-121): `shutil.rmtree`
removes every per-document cache file and the bulk snapshot and the
directory is recreated empty; `self.chunks` is not touched. -/
def clear_cache (_fs : FS) (st : ChunkerState) : FS × ChunkerState :=
  ({ entries := [], snapshot := none }, st)

/-- Membership distributes over append. -/
theorem dictMem_append {α : Type} (d e : PyDict α) (k : String) :
    dictMem (d ++ e) k = (dictMem d k || dictMem e k) :=
  List.any_append

/-- `dictMem` is membership among the keys. -/
theorem dictMem_iff_mem_keys {α : Type} (d : PyDict α) (k : String) :
    dictMem d k = true ↔ k ∈ d.map Prod.fst := by
  simp [dictMem, List.any_eq_true, List.mem_map, Prod.exists, beq_iff_eq]

/-- The key list after `dictSet`: unchanged when the key was present,
otherwise extended by the new key at the end. -/
theorem dictSet_map_fst {α : Type} (d : PyDict α) (k : String) (v : α) :
    (dictSet d k v).map Prod.fst =
      if dictMem d k then d.map Prod.fst else d.map Prod.fst ++ [k] := by
  induction d with
  | nil => simp [dictSet, dictMem]
  | cons kv rest ih =>
    obtain ⟨k', v'⟩ := kv
    by_cases hk : k' = k
    · subst hk
      simp [dictSet, dictMem]
    · simp only [dictSet, if_neg hk, dictMem, List.any_cons, List.map_cons, ih]
      have hbeq : (k' == k) = false := beq_eq_false_iff_ne.mpr hk
      by_cases hm : dictMem rest k
      · simp [dictMem] at hm
        simp [hbeq, hm, dictMem]
      · simp [dictMem] at hm
        simp [hbeq, hm, dictMem]

/-- `dictSet` on an absent key appends the pair at the end. -/
theorem dictSet_of_not_mem {α : Type} (d : PyDict α) (k : String) (v : α)
    (h : dictMem d k = false) : dictSet d k v = d ++ [(k, v)] := by
  induction d with
  | nil => simp [dictSet]
  | cons kv rest ih =>
    obtain ⟨k', v'⟩ := kv
    simp only [dictMem, List.any_cons, Bool.or_eq_false_iff, beq_eq_false_iff_ne] at h
    obtain ⟨h1, h2⟩ := h
    have h2' : dictMem rest k = false := h2
    simp [dictSet, h1, ih h2']

/-- Reading back the key just written. -/
theorem dictGet_dictSet_self {α : Type} (d : PyDict α) (k : String) (v : α) :
    dictGet (dictSet d k v) k = some v := by
  induction d with
  | nil => simp [dictSet, dictGet, List.find?]
  | cons kv rest ih =>
    obtain ⟨k', v'⟩ := kv
    by_cases hk : k' = k
    · subst hk; simp [dictSet, dictGet, List.find?]
    · have hbeq : (k' == k) = false := beq_eq_false_iff_ne.mpr hk
      simpa [dictSet, hk, dictGet, List.find?, hbeq] using ih

/-- A successful read implies key membership. -/
theorem dictGet_mem {α : Type} (d : PyDict α) (k : String) (v : α)
    (h : dictGet d k = some v) : dictMem d k = true := by
  induction d with
  | nil => simp [dictGet] at h
  | cons kv rest ih =>
    by_cases hk : kv.1 = k
    · simp [dictMem, List.any_cons, hk]
    · have hbeq : (kv.1 == k) = false := beq_eq_false_iff_ne.mpr hk
      have hfind : List.find? (fun x => x.1 == k) (kv :: rest) =
          List.find? (fun x => x.1 == k) rest :=
        List.find?_cons_of_neg _ (by simp [hbeq])
      rw [dictGet, hfind] at h
      simpa [dictMem, List.any_cons, hbeq] using ih h

/-- The written key is a member afterwards. -/
theorem dictMem_dictSet_self {α : Type} (d : PyDict α) (k : String) (v : α) :
    dictMem (dictSet d k v) k = true :=
  dictGet_mem _ _ _ (dictGet_dictSet_self d k v)

/-- `e` extends `d` by appending clusters with fresh keys: the store only
grows at the end, existing keys keep their positions. -/
def KeysExtend (d e : ChunkDict) : Prop :=
  ∃ tail, e.map Prod.fst = d.map Prod.fst ++ tail ∧
    ∀ k ∈ tail, k ∉ d.map Prod.fst

theorem keysExtend_of_eq {d e : ChunkDict}
    (h : e.map Prod.fst = d.map Prod.fst) : KeysExtend d e :=
  ⟨[], by simp [h]⟩

theorem keysExtend_refl (d : ChunkDict) : KeysExtend d d :=
  keysExtend_of_eq rfl

theorem keysExtend_trans {d e f : ChunkDict}
    (h1 : KeysExtend d e) (h2 : KeysExtend e f) : KeysExtend d f := by
  obtain ⟨t1, he, ht1⟩ := h1
  obtain ⟨t2, hf, ht2⟩ := h2
  refine ⟨t1 ++ t2, by simp [hf, he], ?_⟩
  intro k hk
  rcases List.mem_append.mp hk with h | h
  · exact ht1 k h
  · intro hd
    exact ht2 k h (by simp [he, hd])

theorem keysExtend_dictSet (d : ChunkDict) (k : String) (v : Chunk) :
    KeysExtend d (dictSet d k v) := by
  by_cases hm : dictMem d k
  · exact keysExtend_of_eq (by simp [dictSet_map_fst, hm])
  · refine ⟨[k], by simp [dictSet_map_fst, hm], ?_⟩
    intro k' hk'
    simp at hk'
    subst hk'
    exact fun hmem => by simp [(dictMem_iff_mem_keys d k').mpr hmem] at hm

/-- `_create_chunk` only ever appends a cluster (or, on LLM failure,
leaves the store untouched). -/
theorem create_chunk_keys (env : LLMEnv) (st : ChunkerState) (p : String) :
    KeysExtend st.chunks (create_chunk env st p).2.1.chunks := by
  rcases h1 : env.answer (LLMQuery.newSummary p) with e | s
  · simp only [create_chunk, h1]
    exact keysExtend_refl _
  · rcases h2 : env.answer (LLMQuery.newTitle s) with e | t
    · simp only [create_chunk, h1, h2]
      exact keysExtend_refl _
    · simp only [create_chunk, h1, h2]
      exact keysExtend_dictSet _ _ _

/-- `add_proposition_to_chunk` never changes the key list of the store:
every mutation is an in-place update of an existing key. -/
theorem add_proposition_to_chunk_keys (env : LLMEnv) (st : ChunkerState)
    (cid p : String) :
    (add_proposition_to_chunk env st cid p).2.1.chunks.map Prod.fst =
      st.chunks.map Prod.fst := by
  rcases hget : dictGet st.chunks cid with _ | c
  · simp only [add_proposition_to_chunk, hget]
  · have hm : dictMem st.chunks cid = true := dictGet_mem _ _ _ hget
    have h1 : ∀ v : Chunk, (dictSet st.chunks cid v).map Prod.fst =
        st.chunks.map Prod.fst := fun v => by simp [dictSet_map_fst, hm]
    have h2 : ∀ v w : Chunk, (dictSet (dictSet st.chunks cid v) cid w).map Prod.fst =
        st.chunks.map Prod.fst := fun v w => by
      rw [dictSet_map_fst, if_pos (dictMem_dictSet_self _ _ _), h1]
    have h3 : ∀ u v w : Chunk,
        (dictSet (dictSet (dictSet st.chunks cid u) cid v) cid w).map Prod.fst =
        st.chunks.map Prod.fst := fun u v w => by
      rw [dictSet_map_fst, if_pos (dictMem_dictSet_self _ _ _), h2]
    rcases ht : env.answer (LLMQuery.updateTitle
        (joinNL (c.propositions ++ [p])) c.summary c.title) with e | t
    · simp only [add_proposition_to_chunk, hget, ht]
      exact h1 _
    · rcases hs : env.answer (LLMQuery.updateSummary
          (joinNL (c.propositions ++ [p])) c.summary) with e | s2
      · simp only [add_proposition_to_chunk, hget, ht, hs]
        exact h2 _ _
      · simp only [add_proposition_to_chunk, hget, ht, hs]
        exact h3 _ _ _

/-- One `add_proposition` call extends the store's key list by at most one
fresh key. -/
theorem add_proposition_keys (env : LLMEnv) (st : ChunkerState) (p : String) :
    KeysExtend st.chunks (add_proposition env st p).2.1.chunks := by
  by_cases hlen : st.chunks.length = 0
  · simp only [add_proposition, if_pos hlen]
    exact create_chunk_keys env st p
  · rcases hfs : find_similar_chunk env st p with ⟨tr, r⟩
    rcases r with e | o
    · simp only [add_proposition, if_neg hlen, hfs]
      exact keysExtend_refl _
    · rcases o with _ | cid
      · simp only [add_proposition, if_neg hlen, hfs]
        exact create_chunk_keys env st p
      · simp only [add_proposition, if_neg hlen, hfs]
        exact keysExtend_of_eq (add_proposition_to_chunk_keys env st cid p)

/-- The proposition loop extends the store by fresh keys only. -/
theorem add_propositions_keys (env : LLMEnv) (st : ChunkerState) (props : List String) :
    KeysExtend st.chunks (add_propositions env st props).2.1.chunks := by
  induction props generalizing st with
  | nil => exact keysExtend_refl _
  | cons p rest ih =>
    rcases hap : add_proposition env st p with ⟨tr, st1, r⟩
    have hext1 : KeysExtend st.chunks st1.chunks := by
      have h := add_proposition_keys env st p
      rw [hap] at h
      exact h
    rcases r with e | u
    · simp only [add_propositions, hap]
      exact hext1
    · rcases u
      simp only [add_propositions, hap]
      exact keysExtend_trans hext1 (ih st1)

/-- `_generate_propositions` extends the store by fresh keys only. -/
theorem generate_propositions_keys (env : LLMEnv) (st : ChunkerState) (text : String) :
    KeysExtend st.chunks (generate_propositions env st text).2.1.chunks := by
  rcases hr : env.answer (LLMQuery.propositions text) with e | resp
  · simp only [generate_propositions, hr]
    exact keysExtend_refl _
  · rcases hp : parse_json_response_sentences resp with _ | props
    · simp only [generate_propositions, hr, hp]
      exact keysExtend_refl _
    · rcases hps : add_propositions env st props with ⟨tr, st1, r⟩
      have hext : KeysExtend st.chunks st1.chunks := by
        have h := add_propositions_keys env st props
        rw [hps] at h
        exact h
      rcases r with e | u
      · simp only [generate_propositions, hr, hp, hps]
        exact hext
      · rcases u
        simp only [generate_propositions, hr, hp, hps]
        exact hext

/-- Merging preserves key membership. -/
theorem merge_preserves_mem (cached : ChunkDict) :
    ∀ (d : ChunkDict) (k : String), dictMem d k = true →
      dictMem (merge_cached_chunks d cached) k = true := by
  induction cached with
  | nil => intro d k h; simpa [merge_cached_chunks] using h
  | cons kv rest ih =>
    intro d k h
    obtain ⟨k', v'⟩ := kv
    unfold merge_cached_chunks
    by_cases hm : dictMem d k'
    · simp only [hm, if_pos]
      exact ih d k h
    · simp only [hm]
      exact ih _ k (by simp [dictMem_append, h])

/-- Every key of the cached record is a member after the merge. -/
theorem merge_mem_of_mem_cached (cached : ChunkDict) :
    ∀ (d : ChunkDict) (k : String) (v : Chunk), (k, v) ∈ cached →
      dictMem (merge_cached_chunks d cached) k = true := by
  induction cached with
  | nil => intro d k v h; simp at h
  | cons kv rest ih =>
    intro d k v h
    obtain ⟨k', v'⟩ := kv
    unfold merge_cached_chunks
    rcases List.mem_cons.mp h with heq | hmem
    · obtain ⟨hk, _⟩ := Prod.mk.injEq .. ▸ heq
      subst hk
      by_cases hm : dictMem d k
      · simp only [hm, if_pos]
        exact merge_preserves_mem rest d k hm
      · simp only [hm]
        exact merge_preserves_mem rest _ k (by simp [dictMem_append, dictMem])
    · exact ih _ k v hmem

/-- When every cached key is already present, the merge loop is a no-op. -/
theorem merge_noop_of_all_mem (cached : ChunkDict) :
    ∀ d : ChunkDict, (∀ kv ∈ cached, dictMem d kv.1 = true) →
      merge_cached_chunks d cached = d := by
  induction cached with
  | nil => intro d _; rfl
  | cons kv rest ih =>
    intro d h
    obtain ⟨k', v'⟩ := kv
    have hm : dictMem d k' = true := h (k', v') (List.mem_cons_self _ _)
    unfold merge_cached_chunks
    simp only [hm, if_pos]
    exact ih d (fun kv hkv => h kv (List.mem_cons_of_mem _ hkv))

/-- Merging the same cached record twice is the same as merging it once. -/
theorem merge_idem (d cached : ChunkDict) :
    merge_cached_chunks (merge_cached_chunks d cached) cached =
      merge_cached_chunks d cached :=
  merge_noop_of_all_mem cached _
    (fun kv hkv => merge_mem_of_mem_cached cached d kv.1 kv.2 hkv)

/-- C1: starting from an empty cluster store, processing the first
proposition creates exactly one cluster, whose propositions list is
exactly that proposition and whose insertion index is 0, and the
create-new decision issues no similarity-judgment LLM call. -/
theorem first_proposition_creates_single_cluster
    (env : LLMEnv) (st : ChunkerState) (p s t : String)
    (hempty : st.chunks = [])
    (hs : env.answer (LLMQuery.newSummary p) = Except.ok s)
    (ht : env.answer (LLMQuery.newTitle s) = Except.ok t) :
    (∀ q ∈ (add_proposition env st p).1, q.isSimilarityJudgment = false) ∧
    (add_proposition env st p).2.1.chunks =
      [(env.newUuid st.uuidCounter,
        { id := env.newUuid st.uuidCounter, title := t, summary := s,
          propositions := [p], index := 0 })] ∧
    (add_proposition env st p).2.2 = Except.ok () := by
  have hlen : st.chunks.length = 0 := by rw [hempty]; rfl
  have hall : add_proposition env st p =
      ([LLMQuery.newSummary p, LLMQuery.newTitle s],
       { chunks := [(env.newUuid st.uuidCounter,
           { id := env.newUuid st.uuidCounter, title := t, summary := s,
             propositions := [p], index := 0 })],
         uuidCounter := st.uuidCounter + 1 },
       Except.ok ()) := by
    simp only [add_proposition, if_pos hlen, create_chunk, hs, ht, hempty]
    rfl
  refine ⟨?_, by rw [hall], by rw [hall]⟩
  intro q hq
  rw [hall] at hq
  simp only [List.mem_cons, List.not_mem_nil, or_false] at hq
  rcases hq with rfl | rfl <;> rfl

/-- The environment for the C1 witness: deterministic summary/title
answers, a constant uuid supply, identity digest. -/
def envC1 : LLMEnv :=
  { answer := fun q =>
      match q with
      | LLMQuery.newSummary _ => Except.ok "S"
      | LLMQuery.newTitle _ => Except.ok "T"
      | _ => Except.error "unexpected query",
    newUuid := fun _ => "u0",
    sha256 := fun s => s }

/-- C1 witness: the theorem applied to the empty store and proposition
`"X"`. -/
theorem first_proposition_creates_single_cluster_witness :
    (∀ q ∈ (add_proposition envC1 ⟨[], 0⟩ "X").1, q.isSimilarityJudgment = false) ∧
    (add_proposition envC1 ⟨[], 0⟩ "X").2.1.chunks =
      [("u0", { id := "u0", title := "T", summary := "S",
                propositions := ["X"], index := 0 })] ∧
    (add_proposition envC1 ⟨[], 0⟩ "X").2.2 = Except.ok () :=
  first_proposition_creates_single_cluster envC1 ⟨[], 0⟩ "X" "S" "T" rfl rfl rfl

/-- C9: when the proposition-extraction response cannot be parsed against
the `Sentences` schema, extraction returns the empty proposition list, the
cluster store is untouched, and no exception propagates. -/
theorem unparseable_extraction_yields_empty
    (env : LLMEnv) (st : ChunkerState) (text resp : String)
    (hresp : env.answer (LLMQuery.propositions text) = Except.ok resp)
    (hparse : parse_json_response_sentences resp = none) :
    generate_propositions env st text =
      ([LLMQuery.propositions text], st, Except.ok []) := by
  simp only [generate_propositions, hresp, hparse]

/-- The environment for the C9 witness: the extraction response is not
JSON at all. -/
def envC9 : LLMEnv :=
  { answer := fun q =>
      match q with
      | LLMQuery.propositions _ => Except.ok "I cannot answer that."
      | _ => Except.error "unexpected query",
    newUuid := fun _ => "u0",
    sha256 := fun s => s }

/-- C9 witness: the theorem applied to a concrete unparseable response. -/
theorem unparseable_extraction_yields_empty_witness :
    generate_propositions envC9 ⟨[], 0⟩ "PAGE" =
      ([LLMQuery.propositions "PAGE"], ⟨[], 0⟩, Except.ok []) :=
  unparseable_extraction_yields_empty envC9 ⟨[], 0⟩ "PAGE"
    "I cannot answer that." rfl (by decide)

/-- C10: the code-fence stripping is lossy.  The body
`{"propositions": ["json is a format"]}` parses to the value it encodes,
but the same body wrapped in a bare ``` fence parses to a DIFFERENT value:
after the backticks are stripped, the first occurrence of "json" — here
inside a string value of the JSON body — is deleted, corrupting the
proposition to `" is a format"`. -/
theorem fence_stripping_corrupts_json_substring :
    parse_json_response_sentences "\x7b\"propositions\": [\"json is a format\"]\x7d" =
      some ["json is a format"] ∧
    parse_json_response_sentences
        ("```" ++ "\x7b\"propositions\": [\"json is a format\"]\x7d" ++ "```") =
      some [" is a format"] ∧
    (some [" is a format"] : Option (List String)) ≠ some ["json is a format"] := by
  refine ⟨by decide, by decide, by decide⟩

/-- The environment for the C2 counterexample: the update-title call
returns "T1", the update-summary call returns "NEW". -/
def envC2 : LLMEnv :=
  { answer := fun q =>
      match q with
      | LLMQuery.updateTitle _ _ _ => Except.ok "T1"
      | LLMQuery.updateSummary _ _ => Except.ok "NEW"
      | _ => Except.error "unexpected query",
    newUuid := fun _ => "u0",
    sha256 := fun s => s }

/-- A store holding one cluster whose summary is "OLD". -/
def stC2 : ChunkerState :=
  ⟨[("c0", { id := "c0", title := "T0", summary := "OLD",
             propositions := ["P0"], index := 0 })], 0⟩

/-- C2 counterexample: in the append path the FIRST LLM call is the title
update and it receives the stale summary "OLD", while the summary that the
same append finally stores is "NEW" — so the title computation is NOT
given the already-updated summary, contradicting the claim. -/
theorem update_path_title_gets_stale_summary_cex :
    (add_proposition_to_chunk envC2 stC2 "c0" "P1").1 =
      [LLMQuery.updateTitle (joinNL ["P0", "P1"]) "OLD" "T0",
       LLMQuery.updateSummary (joinNL ["P0", "P1"]) "OLD"] ∧
    dictGet (add_proposition_to_chunk envC2 stC2 "c0" "P1").2.1.chunks "c0" =
      some { id := "c0", title := "T1", summary := "NEW",
             propositions := ["P0", "P1"], index := 0 } ∧
    ("OLD" : String) ≠ "NEW" := by
  refine ⟨by decide, by decide, by decide⟩

/-- C2 amended: in the new-cluster path the summary is requested first and
the title request is given exactly the summary just produced; in the
append path the TITLE is recomputed first — its request carries the stale
pre-append summary — and only then is the summary recomputed (its request
also carries the stale summary). -/
theorem summary_title_recomputation_order
    (env : LLMEnv) (stc stu : ChunkerState) (p q s t cid : String) (c : Chunk)
    (hs : env.answer (LLMQuery.newSummary p) = Except.ok s)
    (ht : env.answer (LLMQuery.newTitle s) = Except.ok t)
    (hget : dictGet stu.chunks cid = some c) :
    (create_chunk env stc p).1 = [LLMQuery.newSummary p, LLMQuery.newTitle s] ∧
    (∃ rest, (add_proposition_to_chunk env stu cid q).1 =
        LLMQuery.updateTitle (joinNL (c.propositions ++ [q])) c.summary c.title :: rest ∧
      ∀ x ∈ rest,
        x = LLMQuery.updateSummary (joinNL (c.propositions ++ [q])) c.summary) := by
  constructor
  · simp only [create_chunk, hs, ht]
  · rcases hqt : env.answer (LLMQuery.updateTitle
        (joinNL (c.propositions ++ [q])) c.summary c.title) with e | nt
    · refine ⟨[], ?_, by intro x hx; simp at hx⟩
      simp only [add_proposition_to_chunk, hget, hqt]
    · rcases hqs : env.answer (LLMQuery.updateSummary
          (joinNL (c.propositions ++ [q])) c.summary) with e | ns
      · refine ⟨[LLMQuery.updateSummary (joinNL (c.propositions ++ [q])) c.summary],
          ?_, ?_⟩
        · simp only [add_proposition_to_chunk, hget, hqt, hqs]
        · intro x hx
          simp only [List.mem_singleton] at hx
          exact hx
      · refine ⟨[LLMQuery.updateSummary (joinNL (c.propositions ++ [q])) c.summary],
          ?_, ?_⟩
        · simp only [add_proposition_to_chunk, hget, hqt, hqs]
        · intro x hx
          simp only [List.mem_singleton] at hx
          exact hx

/-- C2 witness: the amended ordering theorem applied to the concrete
environment and store of the counterexample scenario. -/
theorem summary_title_recomputation_order_witness :
    (create_chunk envC1 stC2 "P1").1 =
      [LLMQuery.newSummary "P1", LLMQuery.newTitle "S"] ∧
    (∃ rest, (add_proposition_to_chunk envC1 stC2 "c0" "P1").1 =
        LLMQuery.updateTitle (joinNL (["P0"] ++ ["P1"])) "OLD" "T0" :: rest ∧
      ∀ x ∈ rest,
        x = LLMQuery.updateSummary (joinNL (["P0"] ++ ["P1"])) "OLD") :=
  summary_title_recomputation_order envC1 stC2 stC2 "P1" "P1" "S" "T" "c0"
    { id := "c0", title := "T0", summary := "OLD", propositions := ["P0"], index := 0 }
    rfl rfl (by decide)

/-- C3: on a nonempty store, when the similarity-judgment response either
fails schema parsing or names a chunk id absent from the store, the
assigner returns `none`; `add_proposition` then creates a new independent
cluster seeded with the proposition, raises no exception, and leaves every
existing cluster unchanged (the old store is a prefix of the new one). -/
theorem assigner_fallback_creates_new_cluster
    (env : LLMEnv) (st : ChunkerState) (p resp s t : String)
    (hne : st.chunks.length ≠ 0)
    (hresp : env.answer (LLMQuery.findSimilar p (get_chunks st)) = Except.ok resp)
    (hbad : parse_json_response_chunk_match resp = none ∨
      ∃ cid, parse_json_response_chunk_match resp = some ⟨some cid⟩ ∧
        dictMem st.chunks cid = false)
    (hfresh : dictMem st.chunks (env.newUuid st.uuidCounter) = false)
    (hs : env.answer (LLMQuery.newSummary p) = Except.ok s)
    (ht : env.answer (LLMQuery.newTitle s) = Except.ok t) :
    (find_similar_chunk env st p).2 = Except.ok none ∧
    (add_proposition env st p).2.2 = Except.ok () ∧
    (add_proposition env st p).2.1.chunks =
      st.chunks ++ [(env.newUuid st.uuidCounter,
        { id := env.newUuid st.uuidCounter, title := t, summary := s,
          propositions := [p], index := st.chunks.length })] := by
  have hfsc : find_similar_chunk env st p =
      ([LLMQuery.findSimilar p (get_chunks st)], Except.ok none) := by
    rcases hbad with hnone | ⟨cid, hsome, hmem⟩
    · simp only [find_similar_chunk, hresp, hnone]
    · simp only [find_similar_chunk, hresp, hsome, hmem]
      rfl
  have hcreate : create_chunk env st p =
      ([LLMQuery.newSummary p, LLMQuery.newTitle s],
       { chunks := st.chunks ++ [(env.newUuid st.uuidCounter,
           { id := env.newUuid st.uuidCounter, title := t, summary := s,
             propositions := [p], index := st.chunks.length })],
         uuidCounter := st.uuidCounter + 1 },
       Except.ok ()) := by
    simp only [create_chunk, hs, ht, dictSet_of_not_mem _ _ _ hfresh]
  refine ⟨by rw [hfsc], ?_, ?_⟩
  · simp only [add_proposition, if_neg hne, hfsc, hcreate]
  · simp only [add_proposition, if_neg hne, hfsc, hcreate]

/-- The environment for the C3 witness: the similarity judgment names the
nonexistent id "zzz"; the create path answers deterministically. -/
def envC3 : LLMEnv :=
  { answer := fun q =>
      match q with
      | LLMQuery.findSimilar _ _ => Except.ok "\x7b\"chunk_id\": \"zzz\"\x7d"
      | LLMQuery.newSummary _ => Except.ok "S"
      | LLMQuery.newTitle _ => Except.ok "T"
      | _ => Except.error "unexpected query",
    newUuid := fun _ => "u0",
    sha256 := fun s => s }

/-- A store with a single cluster "c0", used by the C3 and C8 witnesses. -/
def stC3 : ChunkerState :=
  ⟨[("c0", { id := "c0", title := "T0", summary := "S0",
             propositions := ["P0"], index := 0 })], 0⟩

/-- C3 witness: the matcher returns the syntactically valid but
nonexistent id "zzz"; a second independent cluster is created and the
first is untouched. -/
theorem assigner_fallback_creates_new_cluster_witness :
    (find_similar_chunk envC3 stC3 "P1").2 = Except.ok none ∧
    (add_proposition envC3 stC3 "P1").2.2 = Except.ok () ∧
    (add_proposition envC3 stC3 "P1").2.1.chunks =
      stC3.chunks ++ [("u0", { id := "u0", title := "T", summary := "S",
                               propositions := ["P1"], index := stC3.chunks.length })] :=
  assigner_fallback_creates_new_cluster envC3 stC3 "P1"
    "\x7b\"chunk_id\": \"zzz\"\x7d" "S" "T" (by decide) rfl
    (Or.inr ⟨"zzz", by decide, by decide⟩) (by decide) rfl rfl

/-- The environment for the C8 counterexample: extraction and similarity
succeed (the proposition "P1" is routed into the existing cluster "c0"),
but the title-update call fails. -/
def envC8 : LLMEnv :=
  { answer := fun q =>
      match q with
      | LLMQuery.propositions _ => Except.ok "\x7b\"propositions\": [\"P1\"]\x7d"
      | LLMQuery.findSimilar _ _ => Except.ok "\x7b\"chunk_id\": \"c0\"\x7d"
      | LLMQuery.updateTitle _ _ _ => Except.error "network failure"
      | _ => Except.error "unexpected query",
    newUuid := fun _ => "u0",
    sha256 := fun s => s }

/-- C8 counterexample: with the title-update LLM call failing, the whole
document run (`_generate_propositions`) ends in the propagated exception —
it is NOT recovered locally — even though the appended proposition "P1" is
retained in cluster "c0" with the stale title and summary. -/
theorem summary_title_failure_propagates_cex :
    (generate_propositions envC8 stC3 "DOC").2.2 =
      Except.error "network failure" ∧
    (generate_propositions envC8 stC3 "DOC").2.1.chunks =
      [("c0", { id := "c0", title := "T0", summary := "S0",
                propositions := ["P0", "P1"], index := 0 })] := by
  refine ⟨by rfl, by decide⟩

/-- C8 amended: when an LLM call fails while regenerating a cluster's
derived fields after the proposition has been appended, the appended
proposition is never rolled back and the exception PROPAGATES out of
`add_proposition_to_chunk` (there is no local recovery or warning),
aborting the document run.  The fields written before the failure remain:
if the TITLE-update call fails, the prior title and summary both remain in
place; if the title update succeeds and the SUMMARY-update call fails, the
new title is already stored and only the prior summary remains. -/
theorem summary_title_failure_keeps_appended_proposition
    (env : LLMEnv) (st : ChunkerState) (cid p e : String) (c : Chunk)
    (hget : dictGet st.chunks cid = some c) :
    (env.answer (LLMQuery.updateTitle
        (joinNL (c.propositions ++ [p])) c.summary c.title) = Except.error e →
      (add_proposition_to_chunk env st cid p).2.2 = Except.error e ∧
      dictGet (add_proposition_to_chunk env st cid p).2.1.chunks cid =
        some { c with propositions := c.propositions ++ [p] }) ∧
    (∀ t2, env.answer (LLMQuery.updateTitle
        (joinNL (c.propositions ++ [p])) c.summary c.title) = Except.ok t2 →
      env.answer (LLMQuery.updateSummary
        (joinNL (c.propositions ++ [p])) c.summary) = Except.error e →
      (add_proposition_to_chunk env st cid p).2.2 = Except.error e ∧
      dictGet (add_proposition_to_chunk env st cid p).2.1.chunks cid =
        some { c with propositions := c.propositions ++ [p], title := t2 }) := by
  constructor
  · intro herr
    refine ⟨?_, ?_⟩
    · simp only [add_proposition_to_chunk, hget, herr]
    · simp only [add_proposition_to_chunk, hget, herr]
      exact dictGet_dictSet_self _ _ _
  · intro t2 hok herr
    refine ⟨?_, ?_⟩
    · simp only [add_proposition_to_chunk, hget, hok, herr]
    · simp only [add_proposition_to_chunk, hget, hok, herr]
      exact dictGet_dictSet_self _ _ _

/-- The environment for the summary-failure branch of the C8 witness: the
title update succeeds with "T1" but the summary update fails. -/
def envC8b : LLMEnv :=
  { answer := fun q =>
      match q with
      | LLMQuery.updateTitle _ _ _ => Except.ok "T1"
      | LLMQuery.updateSummary _ _ => Except.error "network failure"
      | _ => Except.error "unexpected query",
    newUuid := fun _ => "u0",
    sha256 := fun s => s }

/-- C8 witness: the amended theorem applied to both failure points.  With
`envC8` the title call fails and cluster "c0" keeps title "T0" and summary
"S0"; with `envC8b` the summary call fails and "c0" already carries the
new title "T1" while keeping summary "S0"; in both runs the appended
proposition "P1" is retained and the error propagates. -/
theorem summary_title_failure_keeps_appended_proposition_witness :
    ((add_proposition_to_chunk envC8 stC3 "c0" "P1").2.2 =
        Except.error "network failure" ∧
      dictGet (add_proposition_to_chunk envC8 stC3 "c0" "P1").2.1.chunks "c0" =
        some { id := "c0", title := "T0", summary := "S0",
               propositions := ["P0"] ++ ["P1"], index := 0 }) ∧
    ((add_proposition_to_chunk envC8b stC3 "c0" "P1").2.2 =
        Except.error "network failure" ∧
      dictGet (add_proposition_to_chunk envC8b stC3 "c0" "P1").2.1.chunks "c0" =
        some { id := "c0", title := "T1", summary := "S0",
               propositions := ["P0"] ++ ["P1"], index := 0 }) :=
  ⟨(summary_title_failure_keeps_appended_proposition envC8 stC3 "c0" "P1"
      "network failure"
      { id := "c0", title := "T0", summary := "S0",
        propositions := ["P0"], index := 0 }
      (by decide)).1 rfl,
   (summary_title_failure_keeps_appended_proposition envC8b stC3 "c0" "P1"
      "network failure"
      { id := "c0", title := "T0", summary := "S0",
        propositions := ["P0"], index := 0 }
      (by decide)).2 "T1" rfl rfl⟩

/-- Two pages with identical text but different source and page metadata. -/
def pageA : Page := { page_content := "TXT", source := "a.pdf", page := 1 }

/-- The second page of the C5 counterexample. -/
def pageB : Page := { page_content := "TXT", source := "b.pdf", page := 2 }

/-- C5 counterexample: the agentic chunker feeds the SAME string to sha256
for two pages that differ in source and page number (so their persistence
keys coincide), whereas a hash over source + page + text — what the claim
describes, and what only the unused `BaseChunker` variant computes — would
distinguish them.  The agentic persistence key is therefore not computed
over the source path and page number. -/
theorem agentic_hash_ignores_source_and_page_cex :
    agentic_page_hash_input pageA = agentic_page_hash_input pageB ∧
    pageA.source ≠ pageB.source ∧
    pageA.page ≠ pageB.page ∧
    base_page_hash_input pageA ≠ base_page_hash_input pageB := by
  refine ⟨by decide, by decide, by decide, by decide⟩

/-- C5 amended: the agentic chunker's persistence key is a cryptographic
hash over the document's full text ONLY — pages with identical text are
given the identical hash input (hence identical key) regardless of source
and page — while the `BaseChunker` variant (not used by the agentic cache
path) does include source and page in its hash input. -/
theorem agentic_hash_depends_on_text_only
    (p q : Page) (h : p.page_content = q.page_content) :
    agentic_page_hash_input p = agentic_page_hash_input q ∧
    (∃ p2 q2 : Page, p2.page_content = q2.page_content ∧
      base_page_hash_input p2 ≠ base_page_hash_input q2) := by
  refine ⟨h, ⟨pageA, pageB, by decide, by decide⟩⟩

/-- C5 witness: the amended theorem at the two concrete pages. -/
theorem agentic_hash_depends_on_text_only_witness :
    agentic_page_hash_input pageA = agentic_page_hash_input pageB ∧
    (∃ p2 q2 : Page, p2.page_content = q2.page_content ∧
      base_page_hash_input p2 ≠ base_page_hash_input q2) :=
  agentic_hash_depends_on_text_only pageA pageB (by decide)

/-- A populated filesystem and store for the C6 counterexample. -/
def fsC6 : FS :=
  { entries := [("h1", [("c0", { id := "c0", title := "T0", summary := "S0",
                                 propositions := ["P0"], index := 0 })])],
    snapshot := some [("c0", { id := "c0", title := "T0", summary := "S0",
                               propositions := ["P0"], index := 0 })] }

/-- C6 counterexample: after `clear_cache` the in-memory cluster store is
NOT empty — it still holds cluster "c0" exactly as before; only the disk
side is discarded. -/
theorem clear_cache_keeps_memory_store_cex :
    (clear_cache fsC6 stC3).2.chunks ≠ [] ∧
    (clear_cache fsC6 stC3).2 = stC3 := by
  refine ⟨by decide, by decide⟩

/-- C6 amended: `clear_cache` discards every persisted per-document cache
record and the bulk snapshot, but leaves the in-memory cluster store
exactly unchanged (it does not reset `self.chunks`). -/
theorem clear_cache_discards_disk_keeps_memory
    (fs : FS) (st : ChunkerState) (h : String) :
    fsGet (clear_cache fs st).1 h = none ∧
    (clear_cache fs st).1.snapshot = none ∧
    (clear_cache fs st).2 = st := by
  refine ⟨rfl, rfl, rfl⟩

/-- C7: loading the cache record for the same document hash twice leaves
the in-memory cluster store unchanged the second time — every cached id is
already present after the first merge, so the merge is a no-op — and the
second load issues no LLM queries. -/
theorem cache_load_second_time_is_noop
    (env : LLMEnv) (fs : FS) (st : ChunkerState) (content : String)
    (cached : ChunkDict) (tr1 : List LLMQuery) (fs1 : FS) (st1 : ChunkerState)
    (r1 : Except String Unit) (tr2 : List LLMQuery) (fs2 : FS)
    (st2 : ChunkerState) (r2 : Except String Unit)
    (hhit : fsGet fs (env.sha256 (agentic_document_hash_input content)) = some cached)
    (h1 : process_page env fs st true content = (tr1, fs1, st1, r1))
    (h2 : process_page env fs1 st1 true content = (tr2, fs2, st2, r2)) :
    st2 = st1 ∧ tr2 = [] := by
  have e1 : process_page env fs st true content =
      ([], { fs with snapshot := some (merge_cached_chunks st.chunks cached) },
       { st with chunks := merge_cached_chunks st.chunks cached }, Except.ok ()) := by
    simp only [process_page, hhit]
  rw [e1] at h1
  simp only [Prod.mk.injEq] at h1
  obtain ⟨h1a, h1b, h1c, h1d⟩ := h1
  have hhit2 : fsGet fs1 (env.sha256 (agentic_document_hash_input content)) =
      some cached := by
    rw [← h1b]
    exact hhit
  have e2 : process_page env fs1 st1 true content =
      ([], { fs1 with snapshot := some (merge_cached_chunks st1.chunks cached) },
       { st1 with chunks := merge_cached_chunks st1.chunks cached }, Except.ok ()) := by
    simp only [process_page, hhit2]
  rw [e2] at h2
  simp only [Prod.mk.injEq] at h2
  obtain ⟨h2a, h2b, h2c, h2d⟩ := h2
  have hchunks : st1.chunks = merge_cached_chunks st.chunks cached := by
    rw [← h1c]
  have hidem : merge_cached_chunks st1.chunks cached = st1.chunks := by
    rw [hchunks, merge_idem]
  constructor
  · rw [← h2c, hidem]
  · rw [← h2a]

/-- A cluster record reused by the cache-load witness. -/
def chunkC7 : Chunk :=
  { id := "c0", title := "T0", summary := "S0", propositions := ["P0"], index := 0 }

/-- A filesystem holding one cached record under key "K". -/
def fsC7 : FS := { entries := [("K", [("c0", chunkC7)])], snapshot := none }

/-- An environment whose LLM always fails: the cache path must not consult
it. -/
def envC7 : LLMEnv :=
  { answer := fun _ => Except.error "no LLM available",
    newUuid := fun _ => "u0",
    sha256 := fun s => s }

/-- The filesystem after the first cached load of "K". -/
def fsC7b : FS := { entries := [("K", [("c0", chunkC7)])],
                    snapshot := some [("c0", chunkC7)] }

/-- The store after the first cached load of "K". -/
def stC7b : ChunkerState := ⟨[("c0", chunkC7)], 0⟩

/-- C7 witness: loading hash "K" a second time returns the same store and
issues no LLM queries. -/
theorem cache_load_second_time_is_noop_witness :
    (process_page envC7 fsC7b stC7b true "K").2.2.1 = stC7b ∧
    (process_page envC7 fsC7b stC7b true "K").1 = [] :=
  cache_load_second_time_is_noop envC7 fsC7 ⟨[], 0⟩ "K" [("c0", chunkC7)]
    [] fsC7b stC7b (Except.ok ())
    (process_page envC7 fsC7b stC7b true "K").1
    (process_page envC7 fsC7b stC7b true "K").2.1
    (process_page envC7 fsC7b stC7b true "K").2.2.1
    (process_page envC7 fsC7b stC7b true "K").2.2.2
    rfl rfl rfl

/-- The environment for the C4 counterexample: the document's single
proposition "P" is judged similar to the pre-existing cluster "c0" and
merged into it; title/summary updates succeed. -/
def envC4 : LLMEnv :=
  { answer := fun q =>
      match q with
      | LLMQuery.propositions _ => Except.ok "\x7b\"propositions\": [\"P\"]\x7d"
      | LLMQuery.findSimilar _ _ => Except.ok "\x7b\"chunk_id\": \"c0\"\x7d"
      | LLMQuery.updateTitle _ _ _ => Except.ok "T1"
      | LLMQuery.updateSummary _ _ => Except.ok "S1"
      | _ => Except.error "unexpected query",
    newUuid := fun _ => "u0",
    sha256 := fun s => s }

/-- An empty cache directory. -/
def fsC4 : FS := { entries := [], snapshot := none }

/-- C4 counterexample: processing document "DOC" from scratch succeeds and
merges its proposition "P" into cluster "c0" (created by an EARLIER
document — it is already in the store), yet the cache record written under
"DOC"'s hash is EMPTY: the pair ("c0", "P") produced while processing this
document is not in the record, contradicting the claim. -/
theorem document_cache_record_omits_merged_proposition_cex :
    (process_page envC4 fsC4 stC3 false "DOC").2.2.2 = Except.ok () ∧
    fsGet (process_page envC4 fsC4 stC3 false "DOC").2.1
        (envC4.sha256 (agentic_document_hash_input "DOC")) = some [] ∧
    (process_page envC4 fsC4 stC3 false "DOC").2.2.1.chunks =
      [("c0", { id := "c0", title := "T1", summary := "S1",
                propositions := ["P0", "P"], index := 0 })] := by
  refine ⟨by rfl, by decide, by decide⟩

/-- The success path of `process_page` with the cache disabled, written as
one equation: processing the page and then storing the positional tail of
the store as this document's cache record while rewriting the snapshot. -/
theorem process_page_uncached_eq
    (env : LLMEnv) (fs : FS) (st : ChunkerState) (content : String) :
    process_page env fs st false content =
      (match generate_propositions env st content with
       | (tr, st1, Except.error e) => (tr, fs, st1, Except.error e)
       | (tr, st1, Except.ok _) =>
         (tr, { entries := dictSet fs.entries
                  (env.sha256 (agentic_document_hash_input content))
                  (st1.chunks.drop st.chunks.length),
                snapshot := some st1.chunks }, st1, Except.ok ())) := by
  unfold process_page
  cases fsGet fs (env.sha256 (agentic_document_hash_input content)) <;> rfl

/-- C4 amended: the cache record written for a document processed from
scratch is exactly the positional tail of the cluster store beyond the
clusters that existed before the document — i.e. only the clusters NEWLY
CREATED during this document.  Every cluster id in the record was absent
from the store beforehand, so a proposition merged into a cluster created
by an earlier document never appears in the record. -/
theorem process_uncached_record_is_new_clusters_only
    (env : LLMEnv) (fs : FS) (st : ChunkerState) (content : String)
    (tr : List LLMQuery) (fs1 : FS) (st1 : ChunkerState)
    (h : process_page env fs st false content = (tr, fs1, st1, Except.ok ())) :
    fsGet fs1 (env.sha256 (agentic_document_hash_input content)) =
      some (st1.chunks.drop st.chunks.length) ∧
    st1.chunks.map Prod.fst =
      st.chunks.map Prod.fst ++ (st1.chunks.drop st.chunks.length).map Prod.fst ∧
    ∀ k ∈ (st1.chunks.drop st.chunks.length).map Prod.fst,
      k ∉ st.chunks.map Prod.fst := by
  rw [process_page_uncached_eq] at h
  rcases hgen : generate_propositions env st content with ⟨tr2, st2, r2⟩
  rw [hgen] at h
  rcases r2 with e | props
  · simp at h
  · simp only [Prod.mk.injEq] at h
    obtain ⟨htr, hfs1, hst1, _⟩ := h
    have hkeys := generate_propositions_keys env st content
    rw [hgen] at hkeys
    obtain ⟨tail, hk, hfresh⟩ := hkeys
    subst hst1
    have hlen : st.chunks.length = (st.chunks.map Prod.fst).length := by
      rw [List.length_map]
    have htail : (st2.chunks.drop st.chunks.length).map Prod.fst = tail := by
      rw [List.map_drop, hk, hlen, List.drop_left]
    refine ⟨?_, ?_, ?_⟩
    · rw [← hfs1]
      exact dictGet_dictSet_self _ _ _
    · rw [hk, htail]
    · rw [htail]
      exact hfresh

/-- C4 witness: the amended theorem at the counterexample's run — the
record under "DOC"'s hash is the (here empty) positional tail, and no
pre-existing cluster id occurs in it. -/
theorem process_uncached_record_is_new_clusters_only_witness :
    fsGet (process_page envC4 fsC4 stC3 false "DOC").2.1
        (envC4.sha256 (agentic_document_hash_input "DOC")) =
      some ((process_page envC4 fsC4 stC3 false "DOC").2.2.1.chunks.drop
        stC3.chunks.length) ∧
    (process_page envC4 fsC4 stC3 false "DOC").2.2.1.chunks.map Prod.fst =
      stC3.chunks.map Prod.fst ++
        ((process_page envC4 fsC4 stC3 false "DOC").2.2.1.chunks.drop
          stC3.chunks.length).map Prod.fst ∧
    ∀ k ∈ ((process_page envC4 fsC4 stC3 false "DOC").2.2.1.chunks.drop
        stC3.chunks.length).map Prod.fst,
      k ∉ stC3.chunks.map Prod.fst :=
  process_uncached_record_is_new_clusters_only envC4 fsC4 stC3 "DOC"
    (process_page envC4 fsC4 stC3 false "DOC").1
    (process_page envC4 fsC4 stC3 false "DOC").2.1
    (process_page envC4 fsC4 stC3 false "DOC").2.2.1
    rfl
